import Mathlib

/-!
# Verification of the log-cruncher ingest pipeline

Shallow embedding of the core of the `log-cruncher` repository:

* `src/src/streamhack.rs` — the stream repair decoder (`CommaHacker`);
* `src/src/record.rs` — record decoding (`LogEntry` and its serde
  deserializers) and the transactional store (`LogEntry::store`);
* `src/src/lib.rs` / `src/fetch/src/cruncher.rs` — `Cruncher::crunch_gz` /
  `Cruncher::crunch`, the per-object batch transaction;
* `src/src/fetcher.rs` — the bounded-concurrency fetch pipeline
  (`Fetcher::fetch_loop`) and the object-lifecycle contract
  (`LogSet::complete`);
* `src/fetch/src/lib.rs` — the orchestrator loop (`Cruncher::crunch`).

Machine integers are modelled as `Nat`/`Int` with explicit bounds where the
source's types (`u32`, `usize`, `u64`, `i64`) bound a parse; fallible code
returns `Option`/`Except`.
-/

namespace LogCruncher

/-! ## Stream Repair Decoder (`src/src/streamhack.rs`)

`CommaHacker` wraps a `BufRead`; each `read` first drains an internal
carry-over buffer, otherwise pulls one full line from the source, applies the
single regex substitution `,\s*}\s*$` → `}` (first match), and serves from
the result.  We embed the regex at the character level: `\s` is the ASCII
whitespace class, and the substitution replaces the leftmost position where a
comma is followed by whitespace, `}`, and whitespace running to end of line.
-/

/-- The characters matched by the regex class `\s` on the ASCII inputs this
system processes: space, tab, newline, carriage return, vertical tab, form
feed. -/
def isWsChar (c : Char) : Bool :=
  c = ' ' || c = '\t' || c = '\n' || c = '\r' || c = Char.ofNat 11 || c = Char.ofNat 12

/-- Does the remainder of a line, after a candidate comma, match `\s*}\s*$`?
This is the tail of the regex `,\s*}\s*$` from `CommaHacker::read`. -/
def afterComma : List Char → Bool
  | [] => false
  | c :: rest =>
    if c = '}' then rest.all isWsChar
    else if isWsChar c then afterComma rest
    else false

/-- `Regex::replace` of `,\s*}\s*$` by `}` on one line, as performed by
`CommaHacker::read`: replace the leftmost match (which necessarily starts at
a comma) by a single `}`. -/
def hackLine : List Char → List Char
  | [] => []
  | c :: rest =>
    if c = ',' && afterComma rest then ['}']
    else c :: hackLine rest

/-- Whether the regex `,\s*}\s*$` matches anywhere in the line (so
`Regex::replace` alters it). -/
def hasTailComma : List Char → Bool
  | [] => false
  | c :: rest => (c = ',' && afterComma rest) || hasTailComma rest

/-- State of a `CommaHacker` reader: the lines the wrapped `BufRead` will
still yield (each line as `read_line` returns it, hence nonempty until EOF),
and the internal carry-over buffer. -/
structure HackState where
  lines : List (List Char)
  buffer : List Char
deriving DecidableEq

/-- `CommaHacker::read_from_buffer`: serve up to `n` bytes from the
carry-over buffer. -/
def readFromBuffer (st : HackState) (n : Nat) : List Char × HackState :=
  (st.buffer.take n, { st with buffer := st.buffer.drop n })

/-- `CommaHacker::read` with a request for `n` bytes: if the buffer is
nonempty, serve from it; otherwise read one line (`read_line` returns the
empty string at EOF), repair it, store it as the new buffer, and serve from
that. -/
def readOp (st : HackState) (n : Nat) : List Char × HackState :=
  if st.buffer ≠ [] then readFromBuffer st n
  else
    match st.lines with
    | [] => readFromBuffer { lines := [], buffer := hackLine [] } n
    | l :: ls => readFromBuffer { lines := ls, buffer := hackLine l } n

/-- The total byte stream a `CommaHacker` state will still produce: the
carry-over buffer followed by every remaining line, repaired. -/
def totalOut (st : HackState) : List Char :=
  st.buffer ++ (st.lines.map hackLine).flatten

/-- Read the wrapped stream to exhaustion: issue read requests of sizes
`sizes 0, sizes 1, …` and concatenate the returned chunks, stopping at the
first empty return (a `read` of 0 bytes signals EOF to a Rust caller).
`fuel` bounds the number of requests. -/
def drain : Nat → (Nat → Nat) → Nat → HackState → List Char
  | 0, _, _, _ => []
  | fuel + 1, sizes, k, st =>
    if (readOp st (sizes k)).1 = [] then []
    else (readOp st (sizes k)).1 ++ drain fuel sizes (k + 1) (readOp st (sizes k)).2

/-! ## Record Decoder (`src/src/record.rs`)

`LogEntry` derives `serde::Deserialize` with custom per-field deserializers.
We model the JSON values a field can receive and each deserializer's
behaviour on them.  Machine-integer parses (`u32`, `usize`, `u64`) are
modelled as `Nat` with an explicit `< 2^w` bound; `std::time::Duration`
values are carried as their exact microsecond count
(`Duration::from_micros`); `DateTime<Utc>` values as epoch seconds (`Int`).
-/

/-- A JSON value, restricted to the shapes the field deserializers
distinguish (strings, integer numbers, booleans, null). -/
inductive Jv where
  | str (s : String)
  | num (n : Int)
  | jbool (b : Bool)
  | null
deriving DecidableEq

/-- `std::net::IpAddr`.  A parsed V4 address keeps its four octets; a V6
address keeps its textual form (no claim exercises IPv6 canonicalization,
so the external parser's output text is carried verbatim). -/
inductive IpAddr where
  | v4 (a b c d : Nat)
  | v6 (text : String)
deriving DecidableEq

/-- `get_ipv4` from `record.rs`: the dotted-quad string for a V4 address,
`None` otherwise. -/
def get_ipv4 : IpAddr → Option String
  | .v4 a b c d =>
    some (toString a ++ "." ++ toString b ++ "." ++ toString c ++ "." ++ toString d)
  | _ => none

/-- `get_ipv6` from `record.rs`: the textual form for a V6 address, `None`
otherwise. -/
def get_ipv6 : IpAddr → Option String
  | .v6 t => some t
  | _ => none

/-- Value of a digit string (most significant first), with accumulator. -/
def digitsVal : List Char → Nat → Nat
  | [], acc => acc
  | c :: rest, acc => digitsVal rest (acc * 10 + (c.toNat - '0'.toNat))

/-- Parse a nonempty all-digit character list. -/
def parseDigits (l : List Char) : Option Nat :=
  if l ≠ [] ∧ l.all Char.isDigit then some (digitsVal l 0) else none

/-- Rust's `FromStr` for an unsigned integer type with exclusive upper bound
`bound`: an optional leading `+`, then decimal digits, rejecting values that
overflow the type. -/
def parseRustUnsigned (bound : Nat) (s : String) : Option Nat :=
  let l := match s.data with
    | '+' :: rest => rest
    | l => l
  match parseDigits l with
  | some v => if v < bound then some v else none
  | none => none

/-- Split a character list on a separator character (the semantics of
`String.splitOn` with a one-character pattern). -/
def splitOnCharGo (sep : Char) : List Char → List Char → List (List Char)
  | [], acc => [acc.reverse]
  | c :: rest, acc =>
    if c = sep then acc.reverse :: splitOnCharGo sep rest []
    else splitOnCharGo sep rest (c :: acc)

/-- Split a character list on a separator character. -/
def splitOnChar (sep : Char) (l : List Char) : List (List Char) :=
  splitOnCharGo sep l []

/-- One octet of a Rust `Ipv4Addr` literal: decimal digits, no leading
zeros, value at most 255. -/
def parseOctet : List Char → Option Nat
  | [] => none
  | c :: rest =>
    if (c :: rest).all Char.isDigit = false then none
    else if c = '0' ∧ rest ≠ [] then none
    else
      let v := digitsVal (c :: rest) 0
      if v ≤ 255 then some v else none

/-- serde's `Deserialize` for `std::net::IpAddr` (string form): a
dotted-quad parses as V4; otherwise a colon-containing string is accepted as
V6 (full IPv6 grammar is not modelled — no claim depends on it); anything
else is an error. -/
def parseIpAddr (s : String) : Option IpAddr :=
  match splitOnChar '.' s.data with
  | [a, b, c, d] =>
    match parseOctet a, parseOctet b, parseOctet c, parseOctet d with
    | some x, some y, some z, some w => some (.v4 x y z w)
    | _, _, _, _ => if s.data.contains ':' then some (.v6 s) else none
  | _ => if s.data.contains ':' then some (.v6 s) else none

/-- 1-based month number from an English three-letter abbreviation. -/
def monthIdx (m : String) : Option Nat :=
  (List.findIdx? (fun x => x = m)
    ["Jan", "Feb", "Mar", "Apr", "May", "Jun",
     "Jul", "Aug", "Sep", "Oct", "Nov", "Dec"]).map (· + 1)

/-- Gregorian leap-year test. -/
def isLeapYear (y : Int) : Bool :=
  y % 4 = 0 && (y % 100 ≠ 0 || y % 400 = 0)

/-- Days in a Gregorian month. -/
def daysInMonth (y : Int) (m : Nat) : Nat :=
  if m = 2 then (if isLeapYear y then 29 else 28)
  else if m = 4 ∨ m = 6 ∨ m = 9 ∨ m = 11 then 30
  else 31

/-- Days from 1970-01-01 to the given civil date (proleptic Gregorian);
the standard era-based algorithm over truncating integer division. -/
def daysFromCivil (y : Int) (m d : Nat) : Int :=
  let y' := if m ≤ 2 then y - 1 else y
  let era : Int := (if 0 ≤ y' then y' else y' - 399) / 400
  let yoe : Int := y' - era * 400
  let mp : Int := (m : Int) + (if 2 < m then -3 else 9)
  let doy : Int := (153 * mp + 2) / 5 + (d : Int) - 1
  let doe : Int := yoe * 365 + yoe / 4 - yoe / 100 + doy
  era * 146097 + doe - 719468

/-- Epoch seconds of a civil date-time with a fixed offset (in seconds)
from UTC. -/
def civilToEpoch (y : Int) (m d hh mi ss : Nat) (offsetSec : Int) : Int :=
  daysFromCivil y m d * 86400 + (hh : Int) * 3600 + (mi : Int) * 60 + (ss : Int) - offsetSec

/-- Skip an optional fractional-seconds part `.d+`, returning the rest. -/
def skipFrac : List Char → Option (List Char)
  | '.' :: r =>
    if (r.takeWhile Char.isDigit) = ([] : List Char) then none
    else some (r.dropWhile Char.isDigit)
  | r => some r

/-- An RFC 3339 numeric offset `Z`/`z` or `±hh:mm`, in seconds. -/
def parseOffset3339 : List Char → Option Int
  | ['Z'] => some 0
  | ['z'] => some 0
  | [sg, h1, h2, ':', m1, m2] =>
    if (sg = '+' ∨ sg = '-') ∧ [h1, h2, m1, m2].all Char.isDigit then
      let h := digitsVal [h1, h2] 0
      let m := digitsVal [m1, m2] 0
      if h ≤ 23 ∧ m ≤ 59 then
        some (if sg = '-' then -((h : Int) * 3600 + m * 60) else (h : Int) * 3600 + m * 60)
      else none
    else none
  | _ => none

/-- Model of chrono's `DateTime::parse_from_rfc3339` (external crate),
returning epoch seconds: the shape `YYYY-MM-DDThh:mm:ss[.frac](Z|±hh:mm)`
with calendar validation.  In particular no all-digit string is accepted. -/
def parse_from_rfc3339 (s : String) : Option Int :=
  match s.data with
  | y1 :: y2 :: y3 :: y4 :: '-' :: m1 :: m2 :: '-' :: d1 :: d2 :: t ::
      h1 :: h2 :: ':' :: n1 :: n2 :: ':' :: s1 :: s2 :: rest =>
    if ([y1, y2, y3, y4, m1, m2, d1, d2, h1, h2, n1, n2, s1, s2].all Char.isDigit)
        ∧ (t = 'T' ∨ t = 't' ∨ t = ' ') then
      let y : Int := digitsVal [y1, y2, y3, y4] 0
      let mo := digitsVal [m1, m2] 0
      let dy := digitsVal [d1, d2] 0
      let hh := digitsVal [h1, h2] 0
      let mi := digitsVal [n1, n2] 0
      let ss := digitsVal [s1, s2] 0
      if 1 ≤ mo ∧ mo ≤ 12 ∧ 1 ≤ dy ∧ dy ≤ daysInMonth y mo ∧ hh ≤ 23 ∧ mi ≤ 59 ∧ ss ≤ 60 then
        match skipFrac rest with
        | some r => (parseOffset3339 r).map (fun off => civilToEpoch y mo dy hh mi ss off)
        | none => none
      else none
    else none
  | _ => none

/-- A two-digit number. -/
def twoDigits (l : List Char) : Option Nat :=
  match l with
  | [a, b] => if a.isDigit ∧ b.isDigit then some (digitsVal [a, b] 0) else none
  | _ => none

/-- An RFC 2822 time `hh:mm` or `hh:mm:ss`. -/
def parseTimeHMS (t : List Char) : Option (Nat × Nat × Nat) :=
  match splitOnChar ':' t with
  | [h, m] =>
    match twoDigits h, twoDigits m with
    | some hh, some mi => if hh ≤ 23 ∧ mi ≤ 59 then some (hh, mi, 0) else none
    | _, _ => none
  | [h, m, sec] =>
    match twoDigits h, twoDigits m, twoDigits sec with
    | some hh, some mi, some ss =>
      if hh ≤ 23 ∧ mi ≤ 59 ∧ ss ≤ 60 then some (hh, mi, ss) else none
    | _, _, _ => none
  | _ => none

/-- An RFC 2822 zone: `±hhmm` or one of the UTC-equivalent names (other
named zones of the RFC are not modelled — no claim depends on them). -/
def parseZone2822 (z : List Char) : Option Int :=
  match z with
  | [sg, h1, h2, m1, m2] =>
    if (sg = '+' ∨ sg = '-') ∧ [h1, h2, m1, m2].all Char.isDigit then
      let h := digitsVal [h1, h2] 0
      let m := digitsVal [m1, m2] 0
      if m ≤ 59 then
        some (if sg = '-' then -((h : Int) * 3600 + m * 60) else (h : Int) * 3600 + m * 60)
      else none
    else none
  | _ =>
    if String.mk z = "GMT" ∨ String.mk z = "UT" ∨ String.mk z = "UTC" ∨ String.mk z = "Z"
    then some 0 else none

/-- Model of chrono's `DateTime::parse_from_rfc2822` (external crate),
returning epoch seconds: `[Day, ]DD Mon YYYY hh:mm[:ss] zone`.  A month-name
token is mandatory, so in particular no all-digit string is accepted. -/
def parse_from_rfc2822 (s : String) : Option Int :=
  let toks0 := (splitOnChar ' ' s.data).filter (fun t => t ≠ [])
  let toks := match toks0 with
    | t :: rest => if t.getLast? = some ',' then rest else toks0
    | [] => []
  match toks with
  | [dayS, monS, yrS, timeS, zoneS] =>
    match parseDigits dayS, monthIdx (String.mk monS), parseDigits yrS,
        parseTimeHMS timeS, parseZone2822 zoneS with
    | some dy, some mo, some yr, some (hh, mi, ss), some off =>
      if 1 ≤ dy ∧ dy ≤ daysInMonth (yr : Int) mo ∧ dayS.length ≤ 2 ∧ yrS.length = 4 then
        some (civilToEpoch (yr : Int) mo dy hh mi ss off)
      else none
    | _, _, _, _, _ => none
  | _ => none

/-- `deserialize_number_from_string` from `record.rs` at an unsigned target
type with exclusive bound `bound` (untagged `StringOrInt`): a JSON string is
parsed with Rust's `FromStr`, a JSON number is accepted if it fits the
type, anything else fails. -/
def deserialize_number_from_string (bound : Nat) : Jv → Except String Nat
  | .str s =>
    match parseRustUnsigned bound s with
    | some n => .ok n
    | none => .error "invalid digit found in string"
  | .num i =>
    if 0 ≤ i ∧ i < (bound : Int) then .ok i.toNat
    else .error "data did not match any variant of untagged enum StringOrInt"
  | _ => .error "data did not match any variant of untagged enum StringOrInt"

/-- `deserialize_duration_from_usec_string` from `record.rs`: a `u64`
microsecond count (`Duration::from_micros`), modelled as the exact number of
microseconds. -/
def deserialize_duration_from_usec_string (v : Jv) : Except String Nat :=
  deserialize_number_from_string (2 ^ 64) v

/-- `deserialize_bool_from_bitstring` from `record.rs` (untagged
`StringLike`): strings parse as `usize`, numbers pass through, booleans map
to 1/0; then only 0 and 1 are valid. -/
def deserialize_bool_from_bitstring : Jv → Except String Bool
  | .str s =>
    match parseRustUnsigned (2 ^ 64) s with
    | some 0 => .ok false
    | some 1 => .ok true
    | some _ => .error "expected boolean value, got a nonzero, non-one value"
    | none => .error "invalid digit found in string"
  | .num i =>
    if i = 0 then .ok false
    else if i = 1 then .ok true
    else if 0 ≤ i ∧ i < (2 : Int) ^ 64 then
      .error "expected boolean value, got a nonzero, non-one value"
    else .error "data did not match any variant of untagged enum StringLike"
  | .jbool b => .ok b
  | .null => .error "data did not match any variant of untagged enum StringLike"

/-- `deserialize_start_time` from `record.rs` (untagged `StringLike`): a
JSON number is an epoch time at second granularity
(`DateTime::from_timestamp`; chrono's ±262000-year range check is not
modelled, no claim depends on it); a JSON string must parse as RFC 2822,
else RFC 3339, tried in that order; anything else fails. -/
def deserialize_start_time : Jv → Except String Int
  | .num i => .ok i
  | .str s =>
    match parse_from_rfc2822 s with
    | some t => .ok t
    | none =>
      match parse_from_rfc3339 s with
      | some t => .ok t
      | none => .error "unknown string format for timestamp"
  | _ => .error "data did not match any variant of untagged enum StringLike"

/-- The decoded `LogEntry` of `record.rs`. -/
structure LogEntry where
  client_ip : IpAddr
  asn : Nat
  country_code : Option String
  requests : Nat
  ipv6 : Bool
  http2 : Bool
  url_path : String
  referer : String
  user_agent : String
  cache_state : String
  response_status : Nat
  response_bytes : Nat
  /-- microseconds (`Duration::from_micros`) -/
  response_duration : Nat
  /-- epoch seconds UTC -/
  request_start_time : Int
deriving DecidableEq

/-- Look up a required field of the JSON object by its serde-renamed key. -/
def getField (kvs : List (String × Jv)) (k : String) : Except String Jv :=
  match kvs.lookup k with
  | some v => .ok v
  | none => .error ("missing field " ++ k)

/-- A required plain-string field. -/
def getString (kvs : List (String × Jv)) (k : String) : Except String String := do
  match ← getField kvs k with
  | .str s => pure s
  | _ => .error ("invalid type for field " ++ k)

/-- An `Option<String>` field: absent or null is `None`. -/
def getOptString (kvs : List (String × Jv)) (k : String) : Except String (Option String) :=
  match kvs.lookup k with
  | none => .ok none
  | some .null => .ok none
  | some (.str s) => .ok (some s)
  | some _ => .error ("invalid type for field " ++ k)

/-- serde `Deserialize` for `LogEntry`: each field through its configured
deserializer, under its `rename`d key. -/
def decodeLogEntry (kvs : List (String × Jv)) : Except String LogEntry := do
  let ipS ← getString kvs "clientIP"
  let ip ← match parseIpAddr ipS with
    | some ip => pure ip
    | none => Except.error "invalid IP address syntax"
  let asn ← deserialize_number_from_string (2 ^ 32) (← getField kvs "ispID")
  let country ← getOptString kvs "countryCode"
  let reqs ← deserialize_number_from_string (2 ^ 64) (← getField kvs "requests")
  let ipv6 ← deserialize_bool_from_bitstring (← getField kvs "isIPv6")
  let http2 ← deserialize_bool_from_bitstring (← getField kvs "isH2")
  let url_path ← getString kvs "urlPath"
  let referer ← getString kvs "httpReferer"
  let user_agent ← getString kvs "httpUA"
  let cache_state ← getString kvs "cacheState"
  let response_status ← deserialize_number_from_string (2 ^ 64) (← getField kvs "respStatus")
  let response_bytes ← deserialize_number_from_string (2 ^ 64) (← getField kvs "respTotalBytes")
  let response_duration ← deserialize_duration_from_usec_string (← getField kvs "timeElapsed")
  let request_start_time ← deserialize_start_time (← getField kvs "reqStartTime")
  pure {
    client_ip := ip
    asn := asn
    country_code := country
    requests := reqs
    ipv6 := ipv6
    http2 := http2
    url_path := url_path
    referer := referer
    user_agent := user_agent
    cache_state := cache_state
    response_status := response_status
    response_bytes := response_bytes
    response_duration := response_duration
    request_start_time := request_start_time }

/-! ## Transactional Store (`src/src/record.rs` `LogEntry::store`,
`src/fetch/src/cruncher.rs` `Cruncher::crunch`, `src/src/lib.rs`
`Cruncher::crunch_gz`)

The relational state is modelled table by table; a row id is the row's index
in its table (SQLite scan order).  The DDL (`schema.sql`) is not under
`src/`; modelled from the spec: each dimension table's natural key is
declared unique ("Dimension rows … deduplicated by natural key; inserted
with insert-or-ignore semantics"), so `INSERT … ON CONFLICT DO NOTHING`
inserts exactly when the natural key is absent. -/

/-- A fact row of the `requests` table, as inserted by `LogEntry::store`.
Foreign keys are the `Option`al result of the correlated sub-select
(`SELECT id FROM … WHERE …`); the response duration is carried as its exact
microsecond count (the source binds `as_secs_f32()` of that duration). -/
structure Fact where
  client_ip : Option Nat
  asn : Nat
  country_code : Option String
  requests : Nat
  ipv6 : Bool
  http2 : Bool
  cache_state : String
  response_status : Nat
  response_bytes : Nat
  response_duration_usec : Nat
  request_start_time : Int
  url_path : Option Nat
  referer : Option Nat
  user_agent : Option Nat
deriving DecidableEq

/-- The database tables touched by `LogEntry::store`. -/
structure Db where
  client_ips : List (Option String × Option String)
  paths : List String
  referers : List String
  user_agents : List String
  requests : List Fact
deriving DecidableEq

/-- The empty (freshly initialized) database. -/
def emptyDb : Db :=
  { client_ips := [], paths := [], referers := [], user_agents := [], requests := [] }

/-- `INSERT … ON CONFLICT DO NOTHING` against a unique natural key: insert
the row only if the key is not already present. -/
def insertDim {α : Type} [DecidableEq α] (v : α) (l : List α) : List α :=
  if v ∈ l then l else l ++ [v]

/-- SQL equality of two nullable text columns: comparisons involving NULL
are not true. -/
def sqlEq : Option String → Option String → Bool
  | some a, some b => a = b
  | _, _ => false

/-- `LogEntry::store`: insert-or-ignore each dimension row, then insert the
fact row, resolving each foreign key by a correlated sub-select against the
(just-updated) dimension table — for the client IP, by
`ipv4 = :client_ipv4 OR ipv6 = :client_ipv6` under SQL NULL semantics. -/
def LogEntry.store (e : LogEntry) (db : Db) : Db :=
  let ipv4 := get_ipv4 e.client_ip
  let ipv6 := get_ipv6 e.client_ip
  let cips := insertDim (ipv4, ipv6) db.client_ips
  let paths := insertDim e.url_path db.paths
  let refs := insertDim e.referer db.referers
  let uas := insertDim e.user_agent db.user_agents
  let fact : Fact := {
    client_ip := List.findIdx? (fun p => sqlEq p.1 ipv4 || sqlEq p.2 ipv6) cips
    asn := e.asn
    country_code := e.country_code
    requests := e.requests
    ipv6 := e.ipv6
    http2 := e.http2
    cache_state := e.cache_state
    response_status := e.response_status
    response_bytes := e.response_bytes
    response_duration_usec := e.response_duration
    request_start_time := e.request_start_time
    url_path := List.findIdx? (fun p => p = e.url_path) paths
    referer := List.findIdx? (fun r => r = e.referer) refs
    user_agent := List.findIdx? (fun u => u = e.user_agent) uas }
  { client_ips := cips
    paths := paths
    referers := refs
    user_agents := uas
    requests := db.requests ++ [fact] }

/-- The body of `Cruncher::crunch`'s transaction: store each record in
sequence, threading the database; the first failure aborts with its 0-based
record index (`with_context(|| format!("in entry {i}"))`).  The store step
is a parameter: `LogEntry::store` can fail through `rusqlite`, and the
transaction contract holds for any store behaviour. -/
def crunchGo (sf : LogEntry → Db → Except String Db) :
    Nat → List LogEntry → Db → Except (Nat × String) Db
  | _, [], db => .ok db
  | i, r :: rs, db =>
    match sf r db with
    | .error msg => .error (i, msg)
    | .ok db' => crunchGo sf (i + 1) rs db'

/-- `Cruncher::crunch` (and the transactional tail of `crunch_gz`): open one
transaction over the whole batch; commit only if every record stores
successfully, otherwise the transaction is dropped — rolled back — and the
database is returned unchanged alongside the first failure. -/
def crunchWith (sf : LogEntry → Db → Except String Db) (rs : List LogEntry) (db : Db) :
    Except (Nat × String) Unit × Db :=
  match crunchGo sf 0 rs db with
  | .ok db' => (.ok (), db')
  | .error e => (.error e, db)

/-- Sequential application of a store step over a batch, as a reference
for the committed state (`none` if any step fails). -/
def storesAll (sf : LogEntry → Db → Except String Db) (rs : List LogEntry) (db : Db) :
    Option Db :=
  rs.foldlM (fun d r => (sf r d).toOption) db

/-- The always-succeeding store step: `LogEntry::store` when SQLite reports
no error. -/
def storeOk (e : LogEntry) (db : Db) : Except String Db := .ok (e.store db)

/-- `serde_json::Deserializer::into_iter().enumerate()` followed by
`collect::<Result<Vec<_>>>` in `crunch_gz`: the per-value decode results in
stream order, collected all-or-nothing, the first failure tagged with its
0-based position. -/
def collectEntries {α : Type} : List (Except String α) → Except (Nat × String) (List α)
  | [] => .ok []
  | .error e :: _ => .error (0, e)
  | .ok v :: rest =>
    match collectEntries rest with
    | .ok vs => .ok (v :: vs)
    | .error (i, e) => .error (i + 1, e)

/-- `Cruncher::crunch_gz` after decompression: decode and collect every
top-level JSON value first; only then take the connection lock and run the
batch transaction.  The result pairs the outcome with the database state
(unchanged on any error). -/
def crunch_gz (items : List (Except String LogEntry)) (db : Db) :
    Except String Unit × Db :=
  match collectEntries items with
  | .error (i, e) => (.error ("JSON parse error in entry " ++ toString i ++ ": " ++ e), db)
  | .ok entries =>
    match crunchWith storeOk entries db with
    | (.ok (), db') => (.ok (), db')
    | (.error (i, e), db') => (.error ("in entry " ++ toString i ++ ": " ++ e), db')

/-! ### Flat JSON object text (the fragment the end-to-end scenario needs)

`serde_json` is an external crate; we embed the fragment of its grammar the
end-to-end object exercises: one object whose keys and values are plain
strings without escape sequences. -/

/-- Read a JSON string body up to the closing quote (no escapes). -/
def parseJStringGo : List Char → List Char → Option (String × List Char)
  | [], _ => none
  | c :: rest, acc =>
    if c = '"' then some (String.mk acc.reverse, rest)
    else parseJStringGo rest (c :: acc)

/-- Read a JSON string literal `"…"` (no escapes). -/
def parseJString : List Char → Option (String × List Char)
  | '"' :: rest => parseJStringGo rest []
  | _ => none

/-- Read the `"key":"value"` pairs of a flat object, comma-separated, up to
the closing brace; `fuel` bounds recursion. -/
def parseFlatGo : Nat → List Char → Option (List (String × Jv))
  | 0, _ => none
  | fuel + 1, l =>
    match parseJString l with
    | none => none
    | some (k, rest) =>
      match rest with
      | ':' :: r2 =>
        match parseJString r2 with
        | none => none
        | some (v, r3) =>
          match r3 with
          | ',' :: r4 => (parseFlatGo fuel r4).map (fun kvs => (k, .str v) :: kvs)
          | ['}'] => some [(k, .str v)]
          | _ => none
      | _ => none

/-- Parse a flat string-valued JSON object. -/
def parseFlatObj (l : List Char) : Option (List (String × Jv)) :=
  match l with
  | '{' :: rest => parseFlatGo rest.length rest
  | _ => none

/-- One gzip object holding one line of JSON: gunzip (external, modelled as
the already-decompressed bytes), repair the line through the Stream Repair
Decoder, parse the JSON value, decode it, and run `crunch_gz` on the
resulting single-entry stream. -/
def ingestLine (line : String) (db : Db) : Except String Unit × Db :=
  match parseFlatObj (hackLine line.data) with
  | none => (.error "JSON parse error in entry 0", db)
  | some kvs => crunch_gz [decodeLogEntry kvs] db

/-- The end-to-end scenario's object text, trailing comma included. -/
def c2Line : String :=
  "\x7b\"clientIP\":\"1.2.3.4\",\"ispID\":\"64512\",\"countryCode\":\"US\",\"requests\":\"3\",\"isIPv6\":\"0\",\"isH2\":\"1\",\"urlPath\":\"/x\",\"httpReferer\":\"\",\"httpUA\":\"ua\",\"cacheState\":\"HIT\",\"respStatus\":\"200\",\"respTotalBytes\":\"512\",\"timeElapsed\":\"1500\",\"reqStartTime\":\"1700000000\",\x7d"

/-- The same record with the request-start time as an epoch integer (the
form `deserialize_start_time` accepts as a number). -/
def c2KvsNum : List (String × Jv) :=
  [("clientIP", .str "1.2.3.4"), ("ispID", .str "64512"),
   ("countryCode", .str "US"), ("requests", .str "3"),
   ("isIPv6", .str "0"), ("isH2", .str "1"),
   ("urlPath", .str "/x"), ("httpReferer", .str ""),
   ("httpUA", .str "ua"), ("cacheState", .str "HIT"),
   ("respStatus", .str "200"), ("respTotalBytes", .str "512"),
   ("timeElapsed", .str "1500"), ("reqStartTime", .num 1700000000)]

/-- A concrete decoded record, for instantiating batch-level properties. -/
def eDummy : LogEntry :=
  { client_ip := .v4 1 2 3 4
    asn := 0
    country_code := none
    requests := 1
    ipv6 := false
    http2 := false
    url_path := "/"
    referer := ""
    user_agent := ""
    cache_state := "HIT"
    response_status := 200
    response_bytes := 0
    response_duration := 0
    request_start_time := 0 }

/-! ## Object lifecycle and Orchestrator (`src/src/fetcher.rs`
`LogSet::complete`, `Fetcher::delete_object`; `src/fetch/src/lib.rs`
`Cruncher::crunch`)

`anyhow` error-context chains are modelled as a list of context strings,
outermost first; `.context(c)` pushes `c`.  The remote object store is
modelled as the list of object names it currently holds, with `delete`
succeeding (the external store's own I/O failures are outside the
embedding). -/

/-- `anyhow::Context::context`: wrap an error with one more context
string; leave successes alone. -/
def ctxErr {α : Type} (c : String) : Except (List String) α → Except (List String) α
  | .error e => .error (c :: e)
  | .ok v => .ok v

/-- `Fetcher::delete_object`: performs the storage deletion only when
cleanup is enabled.  Returns the result, the remaining storage, and whether
a deletion was attempted. -/
def delete_object (cleanup : Bool) (name : String) (storage : List String) :
    Except (List String) Unit × List String × Bool :=
  if cleanup then (.ok (), storage.erase name, true) else (.ok (), storage, false)

/-- `LogSet::complete`: on a success outcome, delete the underlying object
(contextualizing a deletion failure); on a failure outcome, never touch
storage and propagate the failure with context naming the object. -/
def LogSet.complete (cleanup : Bool) (name : String)
    (status : Except (List String) Unit) (storage : List String) :
    Except (List String) Unit × List String × Bool :=
  match status with
  | .ok _ =>
    let r := delete_object cleanup name storage
    (ctxErr "failed to delete object: " r.1, r.2.1, r.2.2)
  | .error e => (.error (("in handling object " ++ name ++ ": ") :: e), storage, false)

/-- The orchestrator loop of `Cruncher::crunch` (`src/fetch/src/lib.rs`):
consume the fetch channel one item at a time.  An error item is propagated
with `?` (ending the loop); an `Ok` log set is processed (`pf` is the
decode+store outcome for that object, contextualized with the file name),
the ok/err counters are updated, and `complete` is called — its own error
is only logged.  Returns the final `(ok, err, storage)` on normal channel
close. -/
def runLoop (pf : String → Except (List String) Unit) (cleanup : Bool) :
    List (Except (List String) String) → Nat → Nat → List String →
    Except (List String) (Nat × Nat × List String)
  | [], ok, err, storage => .ok (ok, err, storage)
  | .error e :: _, _, _, _ => .error ("got error in streaming log sets" :: e)
  | .ok name :: rest, ok, err, storage =>
    let res := ctxErr ("error in processing log file " ++ name) (pf name)
    let ok' := if res.isOk then ok + 1 else ok
    let err' := if res.isOk then err else err + 1
    runLoop pf cleanup rest ok' err' (LogSet.complete cleanup name res storage).2.1

/-! ## Fetch Pipeline concurrency (`src/src/fetcher.rs` `Fetcher::fetch`,
`Fetcher::fetch_loop`)

`fetch` opens a `tokio::sync::mpsc::channel(capacity)`; `fetch_loop` spawns
one task per listed object, and each task calls `tx.reserve()` — acquiring
one of the channel's `capacity` permits, shared between outstanding permits
and queued messages — before performing the retrieval, then emits through
the already-held permit.  We embed this as a transition system counting
spawned-but-waiting tasks, tasks retrieving while holding a permit, and
queued results. -/

/-- Abstract state of the fetch pipeline: tasks spawned but not yet holding
a permit; tasks retrieving while holding a reserved slot; results occupying
a channel slot awaiting the consumer. -/
structure FetchState where
  pending : Nat
  fetching : Nat
  queued : Nat
deriving DecidableEq

/-- One scheduler step of the fetch pipeline with capacity `c`:
* `spawn` — `fetch_loop` spawns a task for a listed object (unbounded);
* `acquire` — a task's `tx.reserve()` returns: only when a slot is free;
* `emit` — `permit.send` converts the held slot into a queued message;
* `listErr` — `fetch_loop` sends a listing error (also awaiting a slot);
* `recv` — the consumer receives a message, freeing its slot. -/
inductive FetchStep (c : Nat) : FetchState → FetchState → Prop
  | spawn (p f q : Nat) : FetchStep c ⟨p, f, q⟩ ⟨p + 1, f, q⟩
  | acquire (p f q : Nat) : f + q < c → FetchStep c ⟨p + 1, f, q⟩ ⟨p, f + 1, q⟩
  | emit (p f q : Nat) : FetchStep c ⟨p, f + 1, q⟩ ⟨p, f, q + 1⟩
  | listErr (p f q : Nat) : f + q < c → FetchStep c ⟨p, f, q⟩ ⟨p, f, q + 1⟩
  | recv (p f q : Nat) : FetchStep c ⟨p, f, q + 1⟩ ⟨p, f, q⟩

/-- States reachable from the pipeline's start (no tasks, empty channel). -/
inductive FetchReach (c : Nat) : FetchState → Prop
  | init : FetchReach c ⟨0, 0, 0⟩
  | step {s s' : FetchState} : FetchReach c s → FetchStep c s s' → FetchReach c s'

end LogCruncher

namespace LogCruncher

/-! ### Lemmas about the stream repair decoder -/

theorem afterComma_mem : ∀ l : List Char, afterComma l = true →
    ∀ c ∈ l, isWsChar c = true ∨ c = '}' := by
  intro l
  induction l with
  | nil => intro h c hc; cases hc
  | cons c rest ih =>
    intro h d hd
    rw [List.mem_cons] at hd
    unfold afterComma at h
    by_cases hc : c = '}'
    · rw [if_pos hc] at h
      rcases hd with hd | hd
      · right; rw [hd]; exact hc
      · left; exact List.all_eq_true.mp h d hd
    · rw [if_neg hc] at h
      by_cases hw : isWsChar c = true
      · rw [if_pos hw] at h
        rcases hd with hd | hd
        · left; rw [hd]; exact hw
        · exact ih h d hd
      · rw [if_neg hw] at h; simp at h

theorem afterComma_ws_brace (w : List Char) (hw : ∀ c ∈ w, isWsChar c = true) :
    afterComma (w ++ ['}']) = true := by
  induction w with
  | nil => simp [afterComma]
  | cons c rest ih =>
    have hc : isWsChar c = true := hw c (by simp)
    have hcb : c ≠ '}' := by
      intro h; rw [h] at hc; simp [isWsChar] at hc
    simp only [List.cons_append, afterComma, if_neg hcb, if_pos hc]
    exact ih (fun d hd => hw d (by simp [hd]))

theorem afterComma_comma_false (ys zs : List Char) :
    afterComma (ys ++ ',' :: zs) = false := by
  by_contra h
  have h' : afterComma (ys ++ ',' :: zs) = true := by
    revert h; cases afterComma (ys ++ ',' :: zs) <;> simp
  have := afterComma_mem _ h' ',' (by simp)
  rcases this with hws | hbr
  · simp [isWsChar] at hws
  · simp at hbr

/-- Main repair lemma: a line of the form `X , <ws> }` is rewritten to
`X }`. -/
theorem hackLine_match (X w : List Char) (hw : ∀ c ∈ w, isWsChar c = true) :
    hackLine (X ++ ',' :: (w ++ ['}'])) = X ++ ['}'] := by
  induction X with
  | nil =>
    simp only [List.nil_append, hackLine]
    rw [if_pos]
    simp [afterComma_ws_brace w hw]
  | cons x X ih =>
    have hneg : (decide (x = ',') && afterComma (X ++ ',' :: (w ++ ['}']))) = false := by
      by_cases hx : x = ','
      · simp [hx, afterComma_comma_false X (w ++ ['}'])]
      · simp [hx]
    calc hackLine ((x :: X) ++ ',' :: (w ++ ['}']))
        = hackLine (x :: (X ++ ',' :: (w ++ ['}']))) := by rw [List.cons_append]
      _ = x :: hackLine (X ++ ',' :: (w ++ ['}'])) := by
          simp only [hackLine, hneg]; simp
      _ = x :: (X ++ ['}']) := by rw [ih]
      _ = (x :: X) ++ ['}'] := by rw [List.cons_append]

/-- A line the regex does not match passes through unaltered. -/
theorem hackLine_noop (s : List Char) (h : hasTailComma s = false) :
    hackLine s = s := by
  induction s with
  | nil => rfl
  | cons c rest ih =>
    unfold hasTailComma at h
    rw [Bool.or_eq_false_iff] at h
    unfold hackLine
    rw [if_neg (by simp [h.1]), ih h.2]

theorem hackLine_ne_nil (l : List Char) (h : l ≠ []) : hackLine l ≠ [] := by
  cases l with
  | nil => exact absurd rfl h
  | cons c rest =>
    unfold hackLine
    by_cases hc : (decide (c = ',') && afterComma rest) = true
    · simp [hc]
    · simp [hc]

/-- One `read` preserves the pending output stream: the chunk served plus
what the successor state will produce equals what the current state would
produce, nonempty lines stay nonempty, and an empty chunk is only returned
at true end of stream. -/
theorem totalOut_readOp (st : HackState) (n : Nat) (hn : 1 ≤ n)
    (hl : ∀ l ∈ st.lines, l ≠ []) :
    (readOp st n).1 ++ totalOut (readOp st n).2 = totalOut st
    ∧ (∀ l ∈ (readOp st n).2.lines, l ≠ [])
    ∧ ((readOp st n).1 = [] → totalOut st = []) := by
  unfold readOp
  by_cases hb : st.buffer ≠ []
  · rw [if_pos hb]
    unfold readFromBuffer totalOut
    refine ⟨?_, ?_, ?_⟩
    · rw [← List.append_assoc, List.take_append_drop]
    · intro l hml; exact hl l hml
    · intro h
      rcases List.take_eq_nil_iff.mp h with h0 | h0
      · omega
      · exact absurd h0 hb
  · rw [if_neg hb]
    have hbuf : st.buffer = [] := by
      by_contra hcon; exact hb hcon
    cases hlines : st.lines with
    | nil =>
      unfold readFromBuffer totalOut
      simp [hackLine, hbuf, hlines]
    | cons l ls =>
      have hlne : l ≠ [] := hl l (by rw [hlines]; simp)
      have hhne : hackLine l ≠ [] := hackLine_ne_nil l hlne
      unfold readFromBuffer totalOut
      refine ⟨?_, ?_, ?_⟩
      · simp only [hbuf, hlines, List.map_cons, List.flatten_cons, List.nil_append]
        rw [← List.append_assoc, List.take_append_drop]
      · intro l' hml'; exact hl l' (by rw [hlines]; simp [hml'])
      · intro h
        rcases List.take_eq_nil_iff.mp h with h0 | h0
        · omega
        · exact absurd h0 hhne

/-- Reading to exhaustion with any schedule of positive request sizes yields
the full repaired stream, given enough fuel. -/
theorem drain_eq_totalOut : ∀ (fuel : Nat) (sizes : Nat → Nat) (k : Nat) (st : HackState),
    (∀ i, 1 ≤ sizes i) → (∀ l ∈ st.lines, l ≠ []) →
    (totalOut st).length ≤ fuel →
    drain fuel sizes k st = totalOut st := by
  intro fuel
  induction fuel with
  | zero =>
    intro sizes k st hs hl hlen
    have h0 : totalOut st = [] := List.eq_nil_of_length_eq_zero (Nat.le_zero.mp hlen)
    rw [h0]; rfl
  | succ fuel ih =>
    intro sizes k st hs hl hlen
    obtain ⟨h1, h2, h3⟩ := totalOut_readOp st (sizes k) (hs k) hl
    unfold drain
    by_cases ho : (readOp st (sizes k)).1 = []
    · rw [if_pos ho, h3 ho]
    · rw [if_neg ho]
      have hlen' : (totalOut (readOp st (sizes k)).2).length ≤ fuel := by
        have := congrArg List.length h1
        rw [List.length_append] at this
        have hpos : 1 ≤ (readOp st (sizes k)).1.length := by
          cases hc : (readOp st (sizes k)).1 with
          | nil => exact absurd hc ho
          | cons a as => simp
        omega
      rw [ih sizes (k + 1) (readOp st (sizes k)).2 hs h2 hlen', h1]

/-- C8: the Stream Repair Decoder rewrites a line of the form `X,<spaces>}`
to `X}` (removing the trailing comma and the intervening whitespace before
the closing brace), and leaves every line in which the regex `,\s*}\s*$`
does not match unaltered. -/
theorem C8_repair_line (X w s : List Char)
    (hw : ∀ c ∈ w, isWsChar c = true) (hs : hasTailComma s = false) :
    hackLine (X ++ ',' :: (w ++ ['}'])) = X ++ ['}'] ∧ hackLine s = s :=
  ⟨hackLine_match X w hw, hackLine_noop s hs⟩

/-- Witness for C8 at a concrete matching line `a, }` and a concrete
non-matching line `ab}`. -/
theorem C8_repair_line_witness :
    hackLine (['a'] ++ ',' :: ([' '] ++ ['}'])) = ['a'] ++ ['}']
    ∧ hackLine ['a', 'b', '}'] = ['a', 'b', '}'] :=
  C8_repair_line ['a'] [' '] ['a', 'b', '}'] (by decide) (by decide)

/-- C9: the total output of the Stream Repair Decoder is invariant under
re-chunking — draining the wrapped stream with read requests of any positive
sizes yields byte-identical concatenated output (both schedules produce the
full repaired stream). -/
theorem C9_chunk_invariance (lines : List (List Char)) (f g : Nat → Nat)
    (hl : ∀ l ∈ lines, l ≠ []) (hf : ∀ i, 1 ≤ f i) (hg : ∀ i, 1 ≤ g i)
    (fuel₁ fuel₂ : Nat)
    (h₁ : (totalOut ⟨lines, []⟩).length ≤ fuel₁)
    (h₂ : (totalOut ⟨lines, []⟩).length ≤ fuel₂) :
    drain fuel₁ f 0 ⟨lines, []⟩ = drain fuel₂ g 0 ⟨lines, []⟩ := by
  rw [drain_eq_totalOut fuel₁ f 0 ⟨lines, []⟩ hf hl h₁,
    drain_eq_totalOut fuel₂ g 0 ⟨lines, []⟩ hg hl h₂]

/-- Witness for C9: reading a two-line stream 1 byte at a time equals
reading it 4096 bytes at a time. -/
theorem C9_chunk_invariance_witness :
    drain 16 (fun _ => 1) 0 ⟨[['a', ',', ' ', '}', '\n'], ['b', '}']], []⟩
      = drain 16 (fun _ => 4096) 0 ⟨[['a', ',', ' ', '}', '\n'], ['b', '}']], []⟩ :=
  C9_chunk_invariance [['a', ',', ' ', '}', '\n'], ['b', '}']]
    (fun _ => 1) (fun _ => 4096) (by decide)
    (fun _ => Nat.le_refl 1) (fun _ => Nat.le_of_lt (Nat.lt_of_sub_eq_succ rfl)) 16 16
    (by decide) (by decide)

/-! ### Object lifecycle (C3) -/

/-- C3: `complete`, called once with a processing outcome, attempts the
storage deletion iff cleanup is enabled and the outcome is a success (the
object is then removed); on a failure outcome deletion is never attempted,
storage is untouched, and the failure is propagated with context naming the
object. -/
theorem C3_finalize_contract (cleanup : Bool) (name : String)
    (status : Except (List String) Unit) (storage : List String) :
    ((LogSet.complete cleanup name status storage).2.2 = (cleanup && status.isOk))
    ∧ ((LogSet.complete cleanup name status storage).2.1
        = if cleanup && status.isOk then storage.erase name else storage)
    ∧ (∀ e, status = .error e →
        (LogSet.complete cleanup name status storage).1
          = .error (("in handling object " ++ name ++ ": ") :: e)
        ∧ (LogSet.complete cleanup name status storage).2.2 = false) := by
  cases status <;> cases cleanup <;>
    simp [LogSet.complete, delete_object, ctxErr, Except.isOk, Except.toBool]

/-- Witness for C3 at a failure outcome with cleanup enabled: no deletion
attempt, context names the object. -/
theorem C3_finalize_contract_witness :
    (LogSet.complete true "obj" (.error ["boom"]) ["obj"]).2.2
      = (true && (Except.error ["boom"] : Except (List String) Unit).isOk)
    ∧ (LogSet.complete true "obj" (.error ["boom"]) ["obj"]).1
      = .error ["in handling object obj: ", "boom"] := by
  have h := C3_finalize_contract true "obj" (.error ["boom"]) ["obj"]
  exact ⟨h.1, (h.2.2 ["boom"] rfl).1⟩

/-! ### Fetch pipeline bound (C4) -/

/-- Invariant of the fetch pipeline: permit holders plus queued messages
never exceed the channel capacity. -/
theorem fetchReach_bound (c : Nat) : ∀ s : FetchState, FetchReach c s →
    s.fetching + s.queued ≤ c := by
  intro s h
  induction h with
  | init => simp
  | step _ hs ih =>
    cases hs with
    | spawn p f q => simpa using ih
    | acquire p f q hlt => simp at ih ⊢; omega
    | emit p f q => simp at ih ⊢; omega
    | listErr p f q hlt => simp at ih ⊢; omega
    | recv p f q => simp at ih ⊢; omega

/-- C4: for every capacity and every reachable pipeline state, at most `c`
retrieval operations are concurrently past the point of slot acquisition:
each spawned unit acquires one of the `c` reservation slots before the
network retrieval and emits through that slot. -/
theorem C4_bounded_concurrency (c : Nat) (s : FetchState) (h : FetchReach c s) :
    s.fetching ≤ c :=
  Nat.le_trans (Nat.le_add_right s.fetching s.queued) (fetchReach_bound c s h)

/-- Witness for C4: with capacity 1, the state reached by spawning one task
and letting it acquire the slot has at most 1 active retrieval. -/
theorem C4_bounded_concurrency_witness : (⟨0, 1, 0⟩ : FetchState).fetching ≤ 1 :=
  C4_bounded_concurrency 1 ⟨0, 1, 0⟩
    (.step (.step .init (.spawn 0 0 0)) (.acquire 0 0 0 (by decide)))

/-! ### Orchestrator error policy (C1) -/

theorem ctxErr_isOk {α : Type} (c : String) (r : Except (List String) α) :
    (ctxErr c r).isOk = r.isOk := by
  cases r <;> rfl

/-- C1 counterexample: an error item received from the fetch channel is
fatal — with a listing error followed by a further (healthy) log set, the
orchestrator loop returns that error instead of continuing to consume the
channel and counting the failure. -/
theorem C1_counterexample :
    runLoop (fun _ => .ok ()) true [.error ["listing error"], .ok "a"] 0 0 ["a"]
        = .error ["got error in streaming log sets", "listing error"]
    ∧ (runLoop (fun _ => .ok ()) true [.error ["listing error"], .ok "a"] 0 0 ["a"]).isOk
        = false :=
  ⟨rfl, rfl⟩

/-- C1 (amended): a decode/store failure for one object is not fatal — the
orchestrator records it in the aggregate counters, skips only that
iteration, and continues until the channel closes; an error item received
from the channel itself (listing or retrieval failure), however, is
propagated with `?` and aborts the remainder of the run. -/
theorem C1_per_object_failures_nonfatal (pf : String → Except (List String) Unit)
    (cleanup : Bool) (names : List String) (ok err : Nat) (storage : List String) :
    ∃ storage', runLoop pf cleanup (names.map Except.ok) ok err storage =
      .ok (ok + (names.filter (fun n => (pf n).isOk)).length,
           err + (names.filter (fun n => !(pf n).isOk)).length, storage') := by
  induction names generalizing ok err storage with
  | nil => exact ⟨storage, by simp [runLoop]⟩
  | cons n rest ih =>
    simp only [List.map_cons, runLoop, ctxErr_isOk, List.filter_cons]
    by_cases h : (pf n).isOk
    · obtain ⟨s', hs⟩ := ih (ok + 1) err
        ((LogSet.complete cleanup n (ctxErr ("error in processing log file " ++ n) (pf n))
          storage).2.1)
      refine ⟨s', ?_⟩
      simp only [h, if_true, Bool.not_true, if_false, List.length_cons]
      have harith : ok + ((List.filter (fun n => (pf n).isOk) rest).length + 1)
          = ok + 1 + (List.filter (fun n => (pf n).isOk) rest).length := by omega
      rw [harith]
      exact hs
    · obtain ⟨s', hs⟩ := ih ok (err + 1)
        ((LogSet.complete cleanup n (ctxErr ("error in processing log file " ++ n) (pf n))
          storage).2.1)
      refine ⟨s', ?_⟩
      simp only [h, if_false, Bool.not_false, if_true, List.length_cons,
        Bool.not_eq_true]
      have harith : err + ((List.filter (fun n => !(pf n).isOk) rest).length + 1)
          = err + 1 + (List.filter (fun n => !(pf n).isOk) rest).length := by omega
      rw [harith]
      exact hs

/-! ### Transactional store (C5, C6) -/

theorem crunchGo_shift (sf : LogEntry → Db → Except String Db) (k : Nat) :
    ∀ (rs : List LogEntry) (db : Db),
      crunchGo sf k rs db = (crunchGo sf 0 rs db).mapError (fun p => (p.1 + k, p.2)) := by
  intro rs
  induction rs generalizing k with
  | nil => intro db; rfl
  | cons r rest ih =>
    intro db
    cases hr : sf r db with
    | error msg => simp [crunchGo, hr, Except.mapError]
    | ok db' =>
      simp only [crunchGo, hr]
      rw [ih (k + 1) db', ih 1 db']
      cases crunchGo sf 0 rest db' with
      | error p => simp [Except.mapError]; omega
      | ok d => simp [Except.mapError]

theorem crunchGo_ok_iff (sf : LogEntry → Db → Except String Db) :
    ∀ (rs : List LogEntry) (db db' : Db),
      crunchGo sf 0 rs db = .ok db' ↔ storesAll sf rs db = some db' := by
  intro rs
  induction rs with
  | nil =>
    intro db db'
    simp [crunchGo, storesAll, List.foldlM]
  | cons r rest ih =>
    intro db db'
    cases hr : sf r db with
    | error msg =>
      simp [crunchGo, hr, storesAll, List.foldlM, Except.toOption]
    | ok db1 =>
      simp only [crunchGo, hr, storesAll, List.foldlM, Except.toOption, Option.some_bind]
      rw [crunchGo_shift sf 1 rest db1]
      constructor
      · intro h
        cases hgo : crunchGo sf 0 rest db1 with
        | error p => rw [hgo] at h; simp [Except.mapError] at h
        | ok d =>
          rw [hgo] at h
          simp [Except.mapError] at h
          have := (ih db1 db').mp (by rw [hgo, h])
          simpa [storesAll] using this
      · intro h
        have := (ih db1 db').mpr (by simpa [storesAll] using h)
        rw [this]
        simp [Except.mapError]

theorem crunchGo_first_failure (sf : LogEntry → Db → Except String Db) :
    ∀ (i : Nat) (rs : List LogEntry) (db dbi : Db) (r : LogEntry) (msg : String),
      rs.get? i = some r → storesAll sf (rs.take i) db = some dbi →
      sf r dbi = .error msg → crunchGo sf 0 rs db = .error (i, msg) := by
  intro i
  induction i with
  | zero =>
    intro rs db dbi r msg hget htake hfail
    cases rs with
    | nil => simp at hget
    | cons r0 rest =>
      simp at hget
      have hdb : dbi = db := by
        simp [storesAll, List.foldlM] at htake
        exact htake.symm
      subst hget
      subst hdb
      simp [crunchGo, hfail]
  | succ i ih =>
    intro rs db dbi r msg hget htake hfail
    cases rs with
    | nil => simp at hget
    | cons r0 rest =>
      simp only [List.get?_cons_succ] at hget
      simp only [List.take_succ_cons, storesAll, List.foldlM] at htake
      cases hr0 : sf r0 db with
      | error m0 => rw [hr0] at htake; simp [Except.toOption] at htake
      | ok db1 =>
        rw [hr0] at htake
        simp only [Except.toOption, Option.some_bind] at htake
        have hrec := ih rest db1 dbi r msg hget (by simpa [storesAll] using htake) hfail
        simp only [crunchGo, hr0]
        rw [crunchGo_shift sf 1 rest db1, hrec]
        simp [Except.mapError]

/-- C5: the store operation runs the whole batch inside one transaction —
it commits exactly when every record's store succeeds, yielding the
sequentially-updated database; if the first failure occurs at record `i`,
the whole batch is rolled back (the database is returned unchanged) and the
failure is surfaced annotated with index `i`. -/
theorem C5_store_transactional (sf : LogEntry → Db → Except String Db)
    (rs : List LogEntry) (db : Db) :
    (∀ db', storesAll sf rs db = some db' → crunchWith sf rs db = (.ok (), db'))
    ∧ (∀ i r msg dbi, rs.get? i = some r → storesAll sf (rs.take i) db = some dbi →
        sf r dbi = .error msg → crunchWith sf rs db = (.error (i, msg), db)) := by
  constructor
  · intro db' h
    unfold crunchWith
    rw [(crunchGo_ok_iff sf rs db db').mpr h]
  · intro i r msg dbi hget htake hfail
    unfold crunchWith
    rw [crunchGo_first_failure sf i rs db dbi r msg hget htake hfail]

/-- Witness for C5: a batch of one record whose store fails at index 0 rolls
back to the original database and surfaces `(0, msg)`. -/
theorem C5_store_transactional_witness :
    crunchWith (fun _ _ => .error "constraint violation") [eDummy] emptyDb
      = (.error (0, "constraint violation"), emptyDb) :=
  (C5_store_transactional (fun _ _ => .error "constraint violation") [eDummy] emptyDb).2
    0 eDummy "constraint violation" emptyDb rfl rfl rfl

theorem insertDim_mem {α : Type} [DecidableEq α] (v : α) (l : List α) :
    v ∈ insertDim v l := by
  unfold insertDim
  by_cases h : v ∈ l
  · rw [if_pos h]; exact h
  · rw [if_neg h]; simp

theorem insertDim_of_mem {α : Type} [DecidableEq α] {v : α} {l : List α} (h : v ∈ l) :
    insertDim v l = l := by
  unfold insertDim; rw [if_pos h]

theorem insertDim_idem {α : Type} [DecidableEq α] (v : α) (l : List α) :
    insertDim v (insertDim v l) = insertDim v l :=
  insertDim_of_mem (insertDim_mem v l)

/-- C6: storing the same decoded record twice adds exactly one fact row per
store call but never duplicates a dimension row — the insert-or-ignore on
each dimension table (client_ips with its one-NULL-column key included,
paths, referers, user_agents) is idempotent under a repeated natural key. -/
theorem C6_store_idempotent_dimensions (e : LogEntry) (db : Db) :
    ((e.store db).requests.length = db.requests.length + 1)
    ∧ ((e.store (e.store db)).requests.length = db.requests.length + 2)
    ∧ ((e.store (e.store db)).client_ips = (e.store db).client_ips)
    ∧ ((e.store (e.store db)).paths = (e.store db).paths)
    ∧ ((e.store (e.store db)).referers = (e.store db).referers)
    ∧ ((e.store (e.store db)).user_agents = (e.store db).user_agents) := by
  refine ⟨?_, ?_, ?_, ?_, ?_, ?_⟩ <;>
    simp [LogEntry.store, insertDim_idem]

/-! ### Decode all-or-nothing (C7, C10) -/

theorem collectEntries_error_iff {α : Type} :
    ∀ (items : List (Except String α)) (i : Nat) (e : String),
      collectEntries items = .error (i, e) ↔
        (items.get? i = some (.error e) ∧ ∀ j < i, ∃ v, items.get? j = some (.ok v)) := by
  intro items
  induction items with
  | nil => intro i e; simp [collectEntries]
  | cons x rest ih =>
    intro i e
    cases x with
    | error e0 =>
      cases i with
      | zero =>
        simp [collectEntries]
      | succ i' =>
        simp only [collectEntries]
        constructor
        · intro h
          simp at h
        · rintro ⟨hget, hall⟩
          obtain ⟨v, hv⟩ := hall 0 (Nat.succ_pos i')
          simp at hv
    | ok v0 =>
      cases i with
      | zero =>
        simp only [collectEntries]
        constructor
        · intro h
          cases hgo : collectEntries rest with
          | ok vs => rw [hgo] at h; simp at h
          | error p => rw [hgo] at h; simp at h
        · rintro ⟨hget, _⟩
          simp at hget
      | succ i' =>
        simp only [collectEntries]
        constructor
        · intro h
          cases hgo : collectEntries rest with
          | ok vs => rw [hgo] at h; simp at h
          | error p =>
            obtain ⟨j, m⟩ := p
            rw [hgo] at h
            simp at h
            obtain ⟨hp1, hp2⟩ := h
            subst hp1
            subst hp2
            have := (ih j m).mp hgo
            refine ⟨by simpa using this.1, ?_⟩
            intro j hj
            cases j with
            | zero => exact ⟨v0, rfl⟩
            | succ j' =>
              have := this.2 j' (by omega)
              simpa using this
        · rintro ⟨hget, hall⟩
          have hrest : collectEntries rest = .error (i', e) := by
            rw [ih i' e]
            refine ⟨by simpa using hget, ?_⟩
            intro j hj
            have := hall (j + 1) (by omega)
            simpa using this
          rw [hrest]

theorem collectEntries_err_of_get {α : Type} :
    ∀ (items : List (Except String α)) (i : Nat) (e : String),
      items.get? i = some (.error e) → ∃ p, collectEntries items = .error p := by
  intro items
  induction items with
  | nil => intro i e h; simp at h
  | cons x rest ih =>
    intro i e h
    cases x with
    | error e0 => exact ⟨(0, e0), rfl⟩
    | ok v =>
      cases i with
      | zero => simp at h
      | succ i' =>
        obtain ⟨⟨j, msg⟩, hp⟩ := ih i' e (by simpa using h)
        refine ⟨(j + 1, msg), ?_⟩
        simp [collectEntries, hp]

/-- C7: decoding is all-or-nothing per source object — the collected decode
result is the error tagged with position `i` exactly when the `i`-th
top-level value fails and every earlier one succeeds; on any such failure
the whole object's processing aborts with that tagged error and none of the
records before the failure are ingested. -/
theorem C7_decode_all_or_nothing (items : List (Except String LogEntry))
    (i : Nat) (e : String) :
    (collectEntries items = .error (i, e) ↔
      (items.get? i = some (.error e) ∧ ∀ j < i, ∃ v, items.get? j = some (.ok v)))
    ∧ (collectEntries items = .error (i, e) → ∀ db,
        crunch_gz items db
          = (.error ("JSON parse error in entry " ++ toString i ++ ": " ++ e), db)) := by
  refine ⟨collectEntries_error_iff items i e, ?_⟩
  intro h db
  unfold crunch_gz
  rw [h]

/-- Witness for C7: a stream whose second value fails at position 1 after a
healthy first value aborts the whole object without touching the database. -/
theorem C7_decode_all_or_nothing_witness :
    collectEntries [Except.ok eDummy, Except.error "bad"] = .error (1, "bad")
    ∧ crunch_gz [Except.ok eDummy, Except.error "bad"] emptyDb
      = (.error "JSON parse error in entry 1: bad", emptyDb) := by
  have h := C7_decode_all_or_nothing [Except.ok eDummy, Except.error "bad"] 1 "bad"
  have hc : collectEntries [Except.ok eDummy, Except.error "bad"]
      = .error (1, "bad") := by
    rw [h.1]
    refine ⟨rfl, ?_⟩
    intro j hj
    interval_cases j
    exact ⟨eDummy, rfl⟩
  exact ⟨hc, h.2 hc emptyDb⟩

/-- C10: if any top-level value of the gzipped input fails to decode,
`crunch_gz` leaves the database completely unchanged — records are decoded
and collected before the connection lock or any transaction, so the decode
error returns before any database operation. -/
theorem C10_decode_error_db_unchanged (items : List (Except String LogEntry))
    (i : Nat) (e : String) (h : items.get? i = some (.error e)) (db : Db) :
    (crunch_gz items db).2 = db ∧ ∃ msg, (crunch_gz items db).1 = .error msg := by
  obtain ⟨⟨j, m⟩, hp⟩ := collectEntries_err_of_get items i e h
  unfold crunch_gz
  rw [hp]
  exact ⟨rfl, ⟨"JSON parse error in entry " ++ toString j ++ ": " ++ m, rfl⟩⟩

/-- Witness for C10: a one-value stream whose decode fails leaves the empty
database untouched. -/
theorem C10_decode_error_db_unchanged_witness :
    (crunch_gz [Except.error "malformed"] emptyDb).2 = emptyDb
    ∧ ∃ msg, (crunch_gz [Except.error "malformed"] emptyDb).1 = .error msg :=
  C10_decode_error_db_unchanged [Except.error "malformed"] 0 "malformed" rfl emptyDb

/-! ### End-to-end scenario (C2) -/

set_option maxRecDepth 100000

/-- C2 counterexample: ingesting the end-to-end object as given produces no
fact row at all.  Its `reqStartTime` is the JSON *string* `"1700000000"`,
which `deserialize_start_time` only accepts in RFC 2822 or RFC 3339 form, so
the record fails to decode and the whole object aborts, leaving every table
empty — in particular there is no fact row whose response duration could be
examined (and `timeElapsed: "1500"` would in any case decode to 1500
microseconds, not 1.5 seconds). -/
theorem C2_counterexample :
    (ingestLine c2Line emptyDb).2 = emptyDb
    ∧ (ingestLine c2Line emptyDb).2.requests.length = 0
    ∧ (ingestLine c2Line emptyDb).1
      = .error "JSON parse error in entry 0: unknown string format for timestamp"
    ∧ (1500 : Nat) ≠ 1500000 :=
  ⟨rfl, rfl, rfl, by decide⟩

/-- C2 (amended): the object's trailing comma is repaired and it parses;
with `reqStartTime` given as the epoch integer `1700000000` the record
decodes and ingests to exactly one fact row with response duration 1500
microseconds (1.5 milliseconds — `timeElapsed` is a microsecond count),
`ipv6 = false`, `http2 = true`, and exactly one row in each of client_ips,
paths, referers and user_agents. -/
theorem C2_end_to_end :
    (parseFlatObj (hackLine c2Line.data)).isSome = true
    ∧ (crunch_gz [decodeLogEntry c2KvsNum] emptyDb).1 = .ok ()
    ∧ ((crunch_gz [decodeLogEntry c2KvsNum] emptyDb).2.requests.map
        (fun f => (f.response_duration_usec, f.ipv6, f.http2)))
      = [(1500, false, true)]
    ∧ (crunch_gz [decodeLogEntry c2KvsNum] emptyDb).2.client_ips
      = [(some "1.2.3.4", none)]
    ∧ (crunch_gz [decodeLogEntry c2KvsNum] emptyDb).2.paths = ["/x"]
    ∧ (crunch_gz [decodeLogEntry c2KvsNum] emptyDb).2.referers = [""]
    ∧ (crunch_gz [decodeLogEntry c2KvsNum] emptyDb).2.user_agents = ["ua"] :=
  ⟨rfl, rfl, rfl, rfl, rfl, rfl, rfl⟩

end LogCruncher
